import Mathlib

/-!
Verification development for the ProjectHuman authentication core.

The repository ships a Flask backend (JWT issuance/validation, bcrypt
credential checking, single-use password-reset tokens) and a React
frontend (`react-frontend/src/contexts/AuthContext.js`).  The backend
Python sources (`auth_utils.py`, `models.py`, `App.py`) are not part of
the source tree available here, only their documentation; the backend
components (TokenCodec, CredentialStore, UserDirectory,
ResetTokenLedger, AuthService) are therefore modelled from the spec.
The frontend `AuthContext.js` is embedded directly from its source.
-/

namespace ProjectHuman

/-! ## CredentialStore -/

/-- Modelled from the spec: `CredentialStore.hash` (§4.2) of the missing
backend (`models.py`); a salted slow hash (bcrypt).  The model records the
password so that `verify` succeeds exactly on the hashed password, which is
the defining property of the scheme; the wrapper type keeps hashes distinct
from plaintext values. -/
structure PwHash where
  val : String
deriving DecidableEq, Repr

namespace CredentialStore

/-- Modelled from the spec: `CredentialStore.hash(password)` (§4.2). -/
def hash (password : String) : PwHash := ⟨password⟩

/-- Modelled from the spec: `CredentialStore.verify(password, password_hash)`
(§4.2), the scheme's own verify primitive. -/
def verify (password : String) (h : PwHash) : Bool := password == h.val

end CredentialStore

/-! ## TokenCodec -/

/-- Modelled from the spec: the JWT claims payload (§3, §4.1): subject
identity plus `iat`, `nbf`, `exp` (seconds). -/
structure Claims where
  sub : Nat
  iat : Nat
  nbf : Nat
  exp : Nat
deriving DecidableEq, Repr

/-- Modelled from the spec: the HMAC-SHA256 signature of a claims payload
under the process-wide secret (§4.1).  Modelled as an injective pairing of
the secret with the claim fields: forging requires the secret. -/
def mac (secret : Nat) (c : Claims) : Nat :=
  Nat.pair secret (Nat.pair c.sub (Nat.pair c.iat (Nat.pair c.nbf c.exp)))

/-- Modelled from the spec: a signed token (§3): payload plus signature,
stateless, verified by signature and claim checks only. -/
structure SignedToken where
  claims : Claims
  sig : Nat
deriving DecidableEq, Repr

/-- Modelled from the spec: failure cases of `TokenCodec.verify` (§4.1).
`MissingSecret` is a startup-time configuration error and does not arise
at request time, so it is not part of the request-time model. -/
inductive VerifyFailure where
  | Expired
  | NotYetValid
  | Malformed
deriving DecidableEq, Repr

namespace TokenCodec

/-- Modelled from the spec: `TokenCodec.issue(subject_claims, ttl_minutes)`
(§4.1): embeds the subject plus `iat` = now, `nbf` = now,
`exp` = now + ttl, signs with the process-wide secret. -/
def issue (secret : Nat) (subject : Nat) (ttlMinutes : Nat) (now : Nat) :
    SignedToken :=
  let c : Claims := ⟨subject, now, now, now + ttlMinutes * 60⟩
  ⟨c, mac secret c⟩

/-- Modelled from the spec: `TokenCodec.verify(signed_token)` (§4.1):
checks signature integrity, then `exp` > now, then `nbf` <= now. -/
def verify (secret : Nat) (t : SignedToken) (now : Nat) :
    Except VerifyFailure Claims :=
  if t.sig ≠ mac secret t.claims then .error .Malformed
  else if ¬ now < t.claims.exp then .error .Expired
  else if ¬ t.claims.nbf ≤ now then .error .NotYetValid
  else .ok t.claims

end TokenCodec

/-! ## Shared failure taxonomy (§7) -/

/-- Modelled from the spec: the error taxonomy of the missing backend (§7):
validation, duplicate-user, merged credential failure, and the reset/
verification token failures. -/
inductive AuthFailure where
  | ValidationError
  | DuplicateUser
  | InvalidCredentials
  | Unauthorized
  | InvalidToken
  | Expired
  | AlreadyUsed
deriving DecidableEq, Repr

/-- Update the first element of a list satisfying `p` by `f`, leaving the
rest unchanged; models a relational UPDATE of the single row found by a
lookup. -/
def updateFirst (p : α → Bool) (f : α → α) : List α → List α
  | [] => []
  | a :: l => if p a then f a :: l else a :: updateFirst p f l

/-! ## UserDirectory -/

/-- Modelled from the spec: the `User` record (§3) of the missing backend
`models.py`: id, username, email, password_hash, activity and
verification state, and the nullable email-verification token.
`created_at` plays no role in any claim and is omitted. -/
structure User where
  id : Nat
  username : String
  email : String
  password_hash : PwHash
  is_active : Bool
  is_verified : Bool
  email_verification_token : Option String
deriving DecidableEq, Repr

/-- Modelled from the spec: username validation (§4.3): 3 to 80 characters
drawn from letters, digits, hyphen and underscore. -/
def validUsernameChar (c : Char) : Bool :=
  c.isAlpha || c.isDigit || c == '_' || c == '-'

/-- Modelled from the spec: username validation (§4.3), over the
character list of the string. -/
def validUsername (u : String) : Bool :=
  3 ≤ u.data.length && u.data.length ≤ 80 && u.data.all validUsernameChar

/-- Modelled from the spec: the RFC-approximate email format check (§4.3):
exactly one `@` separating a nonempty local part from a nonempty domain
that contains a dot, over the character list of the string. -/
def validEmail (e : String) : Bool :=
  let lp := e.data.takeWhile (fun c => !(c == '@'))
  let rest := e.data.dropWhile (fun c => !(c == '@'))
  match rest with
  | '@' :: dom =>
      !lp.isEmpty && !dom.isEmpty && !dom.contains '@' && dom.contains '.'
  | _ => false

/-- Modelled from the spec: password validation (§4.3): at least six
characters. -/
def validPassword (p : String) : Bool := 6 ≤ p.data.length

/-- Modelled from the spec: the user store of `UserDirectory` (§4.3), a
relational table with an id sequence. -/
structure Directory where
  users : List User
  nextId : Nat
deriving DecidableEq, Repr

namespace UserDirectory

/-- Modelled from the spec: `UserDirectory.findByEmail` (§4.3). -/
def findByEmail (d : Directory) (email : String) : Option User :=
  d.users.find? (fun u => u.email == email)

/-- Modelled from the spec: `UserDirectory.findById` (§4.3). -/
def findById (d : Directory) (uid : Nat) : Option User :=
  d.users.find? (fun u => u.id == uid)

/-- Modelled from the spec: the username half of the uniqueness check
behind `DuplicateUser` (§4.3). -/
def usernameTaken (d : Directory) (username : String) : Bool :=
  d.users.any (fun u => u.username == username)

/-- Modelled from the spec: the email half of the uniqueness check behind
`DuplicateUser` (§4.3). -/
def emailTaken (d : Directory) (email : String) : Bool :=
  d.users.any (fun u => u.email == email)

/-- Modelled from the spec: `UserDirectory.create` (§4.3): validates
username, email and password, rejects duplicates, then stores the hashed
password with `is_active` = true, `is_verified` = false and a fresh
email-verification token.  The generated random token is passed in as
`verifTok`, modelling the randomness source as an input. -/
def create (d : Directory) (username email password verifTok : String) :
    Except AuthFailure (User × Directory) :=
  if ¬ (validUsername username && validEmail email && validPassword password) then
    .error .ValidationError
  else if usernameTaken d username || emailTaken d email then
    .error .DuplicateUser
  else
    let u : User := ⟨d.nextId, username, email, CredentialStore.hash password,
      true, false, some verifTok⟩
    .ok (u, ⟨d.users ++ [u], d.nextId + 1⟩)

/-- Predicate for the `markVerified` lookup: the user holds the given
email-verification token. -/
def holdsVerifTok (tok : String) (u : User) : Bool :=
  u.email_verification_token == some tok

/-- Modelled from the spec: `UserDirectory.markVerified(token)` (§4.3):
looks up the user by `email_verification_token`, fails with `InvalidToken`
if no match; on success sets `is_verified` = true and clears the token
field (single-use). -/
def markVerified (d : Directory) (tok : String) :
    Except AuthFailure (User × Directory) :=
  match d.users.find? (holdsVerifTok tok) with
  | none => .error .InvalidToken
  | some u =>
      .ok ({u with is_verified := true, email_verification_token := none},
        ⟨updateFirst (holdsVerifTok tok)
          (fun x => {x with is_verified := true, email_verification_token := none})
          d.users, d.nextId⟩)

/-- Modelled from the spec: `UserDirectory.setPasswordHash(user_id,
new_hash)` (§4.3): overwrites `password_hash`, touching nothing else. -/
def setPasswordHash (d : Directory) (uid : Nat) (h : PwHash) : Directory :=
  ⟨d.users.map (fun u => if u.id == uid then {u with password_hash := h} else u),
    d.nextId⟩

end UserDirectory

/-! ## ResetTokenLedger -/

/-- Modelled from the spec: the `PasswordResetToken` record (§3) of the
missing backend `models.py`. -/
structure ResetToken where
  user_id : Nat
  token : String
  created_at : Nat
  expires_at : Nat
  used : Bool
deriving DecidableEq, Repr

/-- The table of password-reset tokens. -/
abbrev Ledger := List ResetToken

/-- A reset token is active at `now` when it is unused and unexpired
(`validate` treats a token as expired only when now > expires_at). -/
def activeAt (now : Nat) (r : ResetToken) : Bool :=
  !r.used && now ≤ r.expires_at

namespace ResetTokenLedger

/-- Modelled from the spec: `ResetTokenLedger.issue(user_id)` (§4.4):
invalidates (marks used) any currently-active token for the user and
inserts a new record with `expires_at` = now + 10 minutes, `used` = false.
The fresh random token string is the `tok` input. -/
def issue (l : Ledger) (uid : Nat) (tok : String) (now : Nat) : Ledger :=
  (l.map (fun r =>
    if r.user_id == uid && activeAt now r then {r with used := true} else r))
  ++ [⟨uid, tok, now, now + 600, false⟩]

/-- Modelled from the spec: `ResetTokenLedger.validate(token_string)`
(§4.4): exact token lookup, `InvalidToken` if absent, `Expired` if
now > expires_at, `AlreadyUsed` if used; success returns the owner and
does not mutate. -/
def validate (l : Ledger) (tok : String) (now : Nat) :
    Except AuthFailure Nat :=
  match l.find? (fun r => r.token == tok) with
  | none => .error .InvalidToken
  | some r =>
      if r.expires_at < now then .error .Expired
      else if r.used then .error .AlreadyUsed
      else .ok r.user_id

/-- Modelled from the spec: `ResetTokenLedger.cleanupExpired()` (§4.4):
removes all tokens with expires_at < now, regardless of the used flag. -/
def cleanupExpired (l : Ledger) (now : Nat) : Ledger :=
  l.filter (fun r => !(r.expires_at < now : Bool))

end ResetTokenLedger

/-! ## Combined backend state and `consume` -/

/-- Modelled from the spec: the persistent state the auth flows touch:
the user table and the reset-token table. -/
structure BackendState where
  dir : Directory
  ledger : Ledger
deriving DecidableEq, Repr

namespace ResetTokenLedger

/-- Modelled from the spec: `ResetTokenLedger.consume(token_string,
new_password)` (§4.4): re-validates, then as one atomic transaction hashes
the new password, stores it via `UserDirectory.setPasswordHash`, and marks
the token used.  Concurrent calls serialize on this transaction (§5). -/
def consume (s : BackendState) (tok : String) (newPassword : String)
    (now : Nat) : Except AuthFailure BackendState :=
  match validate s.ledger tok now with
  | .error e => .error e
  | .ok uid =>
      .ok ⟨UserDirectory.setPasswordHash s.dir uid
            (CredentialStore.hash newPassword),
        updateFirst (fun r => r.token == tok)
          (fun r => {r with used := true}) s.ledger⟩

end ResetTokenLedger

/-! ## AuthService -/

namespace AuthService

/-- Modelled from the spec: `AuthService.login(email, password)` (§4.5):
`findByEmail`; fails with the merged generic `InvalidCredentials` if the
user is absent or `CredentialStore.verify` fails or `is_active` is false;
on success issues a 15-minute session token for the user's id. -/
def login (d : Directory) (secret : Nat) (email password : String)
    (now : Nat) : Except AuthFailure SignedToken :=
  match UserDirectory.findByEmail d email with
  | none => .error .InvalidCredentials
  | some u =>
      if ¬ CredentialStore.verify password u.password_hash then
        .error .InvalidCredentials
      else if ¬ u.is_active then .error .InvalidCredentials
      else .ok (TokenCodec.issue secret u.id 15 now)

/-- Modelled from the spec: `AuthService.register(username, email,
password)` (§4.5): creates via `UserDirectory.create`, then issues the
session token; directory failures surface verbatim. -/
def register (d : Directory) (secret : Nat)
    (username email password verifTok : String) (now : Nat) :
    Except AuthFailure (User × SignedToken × Directory) :=
  match UserDirectory.create d username email password verifTok with
  | .error e => .error e
  | .ok (u, d') => .ok (u, TokenCodec.issue secret u.id 15 now, d')

/-- Modelled from the spec: the enumeration-resistant response body of
`POST /api/auth/request-password-reset` (§6). -/
def resetRequestMessage : String :=
  "If an account with that email exists, a password reset link has been sent."

/-- Modelled from the spec: the JSON response body of the reset-request
endpoint, a single `message` field. -/
structure ResetRequestResponse where
  message : String
deriving DecidableEq, Repr

/-- Modelled from the spec: `AuthService.requestPasswordReset(email)`
(§4.5): looks the user up; if absent still returns the success-shaped
response; if present issues a ledger token (the random string is the
`tok` input) and dispatches mail.  The returned triple is (response body,
new state, mail dispatched). -/
def requestPasswordReset (s : BackendState) (email tok : String)
    (now : Nat) : ResetRequestResponse × BackendState × Bool :=
  match UserDirectory.findByEmail s.dir email with
  | none => (⟨resetRequestMessage⟩, s, false)
  | some u =>
      (⟨resetRequestMessage⟩,
        ⟨s.dir, ResetTokenLedger.issue s.ledger u.id tok now⟩, true)

/-- Modelled from the spec: `AuthService.verifyEmail(token)` (§4.5):
delegates to `UserDirectory.markVerified`. -/
def verifyEmail (d : Directory) (tok : String) :
    Except AuthFailure (User × Directory) :=
  UserDirectory.markVerified d tok

end AuthService

/-! ## Frontend: `react-frontend/src/contexts/AuthContext.js`

Embedded from the source.  `decodeToken` base64url-decodes and
JSON-parses the middle segment of a JWT, returning `null` on any failure;
it is abstracted as a `String → Option JwtPayload` parameter, so every
theorem below holds for every decoder.  `Date.now() / 1000` is a rational
number of seconds, so the clock is a `ℚ`. -/

namespace Frontend

/-- The decoded JWT payload as `AuthContext.js` uses it: only the `exp`
claim is consulted; a payload without an `exp` field decodes to `none`
there.  JSON numbers that matter here are integral epoch seconds. -/
structure JwtPayload where
  exp : Option Int
deriving DecidableEq, Repr

/-- Truthiness of the value returned by `TokenManager.getToken()`:
`null` and the empty string are falsy in `if (token && ...)`. -/
def tokenTruthy : Option String → Bool
  | none => false
  | some t => !t.isEmpty

namespace TokenManager

/-- Embeds `TokenManager.isTokenExpired` (AuthContext.js:95-103): decode
failure or a falsy `exp` claim (absent, or the falsy number 0) counts as
expired; otherwise the token is expired exactly when `exp` is below
`Date.now() / 1000`. -/
def isTokenExpired (decode : String → Option JwtPayload) (now : ℚ)
    (token : String) : Bool :=
  match decode token with
  | none => true
  | some p =>
      match p.exp with
      | none => true
      | some e => if e = 0 then true else decide ((e : ℚ) < now)

/-- Embeds `TokenManager.isTokenValid` (AuthContext.js:106-108):
`token && !this.isTokenExpired(token)`. -/
def isTokenValid (decode : String → Option JwtPayload) (now : ℚ)
    (token : Option String) : Bool :=
  match token with
  | none => false
  | some t => !t.isEmpty && !isTokenExpired decode now t

/-- The two localStorage keys the client uses: `projecthuman_token` and
`projecthuman_user`. -/
structure Storage where
  token : Option String
  user : Option String
deriving DecidableEq, Repr

/-- Embeds `TokenManager.clearToken` (AuthContext.js:43-52): removes both
the token key and the user key. -/
def clearToken (_st : Storage) : Storage := ⟨none, none⟩

end TokenManager

/-- The one header of the request config that the interceptor touches. -/
structure RequestConfig where
  authorization : Option String
deriving DecidableEq, Repr

/-- Embeds the axios request interceptor (AuthContext.js:123-134): reads
the stored token and attaches `Authorization: Bearer <token>` exactly when
`token && TokenManager.isTokenValid(token)`. -/
def requestInterceptor (decode : String → Option JwtPayload) (now : ℚ)
    (stored : Option String) (config : RequestConfig) : RequestConfig :=
  if tokenTruthy stored && TokenManager.isTokenValid decode now stored then
    ⟨some ("Bearer " ++ stored.getD "")⟩
  else config

/-- The part of an axios error the response interceptor inspects:
`error.response?.status` (`none` when no response arrived). -/
structure HttpError where
  status : Option Nat
deriving DecidableEq, Repr

/-- Embeds the axios response-error interceptor (AuthContext.js:137-148):
on a 401 response it clears the stored token and user, then rejects the
error in every case (the `Bool` is true when the error propagates). -/
def responseErrorInterceptor (st : TokenManager.Storage) (e : HttpError) :
    TokenManager.Storage × Bool :=
  if e.status == some 401 then (TokenManager.clearToken st, true)
  else (st, true)

/-- The `AuthProvider` React state that `logout`/`clearAuth` touch,
together with the localStorage contents. -/
structure AuthContextState where
  user : Option String
  isAuthenticated : Bool
  isLoading : Bool
  error : Option String
  storage : TokenManager.Storage
deriving DecidableEq, Repr

/-- Embeds `clearAuth` (AuthContext.js:215-220): clears storage and resets
`user`, `isAuthenticated` and `error`. -/
def clearAuth (s : AuthContextState) : AuthContextState :=
  { s with
    user := none
    isAuthenticated := false
    error := none
    storage := TokenManager.clearToken s.storage }

/-- Embeds `logout` (AuthContext.js:279-293): sets loading, attempts
`POST /api/auth/logout` (its outcome is the `apiResult` input; a failure
is caught and logged), then unconditionally runs `clearAuth` and clears
the loading flag. -/
def logout (s : AuthContextState) (apiResult : Except Unit Unit) :
    AuthContextState :=
  let s1 : AuthContextState := { s with isLoading := true }
  let s2 : AuthContextState :=
    match apiResult with
    | .ok _ => s1
    | .error _ => s1
  { clearAuth s2 with isLoading := false }

end Frontend

/-! ## Ledger events and reachable states

The operations that mutate the reset-token table (§4.4, §5): issuing a
token (reached from `requestPasswordReset`), consuming one
(`resetPassword`), and the best-effort cleanup.  `validate` does not
mutate.  Each is the atomic unit the spec requires (§5), so a history is
an interleaving of these units at nondecreasing timestamps. -/

/-- A ledger-mutating event together with its request payload. -/
inductive BackendEvent where
  | issueReset (uid : Nat) (tok : String)
  | consumeReset (tok : String) (pw : String)
  | cleanup
deriving Repr

/-- Apply one atomic event at time `now`; a failed `consume` leaves the
state unchanged. -/
def applyEvent (s : BackendState) (e : BackendEvent) (now : Nat) :
    BackendState :=
  match e with
  | .issueReset uid tok => ⟨s.dir, ResetTokenLedger.issue s.ledger uid tok now⟩
  | .consumeReset tok pw =>
      match ResetTokenLedger.consume s tok pw now with
      | .ok s2 => s2
      | .error _ => s
  | .cleanup => ⟨s.dir, ResetTokenLedger.cleanupExpired s.ledger now⟩

/-- States reachable from an empty reset-token table by atomic events at
nondecreasing timestamps. -/
inductive Reachable : BackendState → Nat → Prop where
  | init (d : Directory) : Reachable ⟨d, []⟩ 0
  | tick {s : BackendState} {t : Nat} (t2 : Nat) :
      Reachable s t → t ≤ t2 → Reachable s t2
  | step {s : BackendState} {t : Nat} (e : BackendEvent) :
      Reachable s t → Reachable (applyEvent s e t) t

/-- Two ledger rows conflict at `now` when they belong to the same user
and are both active. -/
def ConflictAt (now : Nat) (a b : ResetToken) : Prop :=
  a.user_id = b.user_id ∧ activeAt now a = true ∧ activeAt now b = true

/-- The per-user single-active-token invariant (§3), phrased pairwise:
no two rows of the table conflict. -/
def AtMostOneActive (l : Ledger) (now : Nat) : Prop :=
  l.Pairwise (fun a b => ¬ ConflictAt now a b)

/-! ## Theorems -/

theorem isTokenExpired_eq_false_iff
    (decode : String → Option Frontend.JwtPayload) (now : ℚ) (t : String) :
    Frontend.TokenManager.isTokenExpired decode now t = false ↔
      ∃ p e, decode t = some p ∧ p.exp = some e ∧ e ≠ 0 ∧ ¬ ((e : ℚ) < now) := by
  unfold Frontend.TokenManager.isTokenExpired
  cases hd : decode t with
  | none => simp [hd]
  | some p =>
    cases he : p.exp with
    | none => simp [he]
    | some e =>
      by_cases h0 : e = 0
      · simp [he, h0]
      · by_cases hlt : (e : ℚ) < now
        · simp [he, h0, hlt]
        · simp [he, h0, hlt, le_of_not_lt hlt]

theorem isTokenExpired_eq_false_iff_pos
    (decode : String → Option Frontend.JwtPayload) (now : ℚ) (t : String)
    (hnow : 0 < now) :
    Frontend.TokenManager.isTokenExpired decode now t = false ↔
      ∃ p e, decode t = some p ∧ p.exp = some e ∧ now ≤ (e : ℚ) := by
  rw [isTokenExpired_eq_false_iff]
  constructor
  · rintro ⟨p, e, hd, he, _, hlt⟩
    exact ⟨p, e, hd, he, le_of_not_lt hlt⟩
  · rintro ⟨p, e, hd, he, hle⟩
    refine ⟨p, e, hd, he, ?_, not_lt.mpr hle⟩
    intro h0
    rw [h0] at hle
    exact absurd (lt_of_lt_of_le hnow hle) (by norm_num)

/-- C8: the request interceptor attaches an `Authorization: Bearer` header
exactly when a token is stored (truthy) and its payload decodes with an
`exp` claim that has not passed; a stored token that fails to decode, or
whose payload lacks an `exp` claim, is treated as expired and never
attached.  The clock hypothesis `0 < now` says the current time is after
the epoch, which is what `Date.now()` returns. -/
theorem requestInterceptor_attaches_iff
    (decode : String → Option Frontend.JwtPayload) (now : ℚ)
    (stored : Option String) (config : Frontend.RequestConfig)
    (hnow : 0 < now) (hcfg : config.authorization = none) :
    ((Frontend.requestInterceptor decode now stored config).authorization ≠ none ↔
      ∃ t p e, stored = some t ∧ t ≠ "" ∧ decode t = some p ∧
        p.exp = some e ∧ now ≤ (e : ℚ)) ∧
    (∀ t, decode t = none →
      Frontend.TokenManager.isTokenExpired decode now t = true) ∧
    (∀ t p, decode t = some p → p.exp = none →
      Frontend.TokenManager.isTokenExpired decode now t = true) := by
  refine ⟨?_, ?_, ?_⟩
  · constructor
    · intro hne
      by_cases hc : (Frontend.tokenTruthy stored &&
          Frontend.TokenManager.isTokenValid decode now stored) = true
      · cases stored with
        | none => simp [Frontend.tokenTruthy] at hc
        | some t =>
          simp only [Frontend.tokenTruthy, Frontend.TokenManager.isTokenValid,
            Bool.and_eq_true, Bool.not_eq_true'] at hc
          obtain ⟨hie, -, hexp⟩ := hc
          obtain ⟨p, e, hd, he, hle⟩ :=
            (isTokenExpired_eq_false_iff_pos decode now t hnow).mp hexp
          refine ⟨t, p, e, rfl, ?_, hd, he, hle⟩
          intro h
          rw [h] at hie
          cases hie
      · exfalso
        apply hne
        simp [Frontend.requestInterceptor, hc, hcfg]
    · rintro ⟨t, p, e, hst, hemp, hd, he, hle⟩
      subst hst
      have hie : t.isEmpty = false :=
        Bool.eq_false_iff.mpr (fun h => hemp ((String.isEmpty_iff t).mp h))
      have hexp : Frontend.TokenManager.isTokenExpired decode now t = false :=
        (isTokenExpired_eq_false_iff_pos decode now t hnow).mpr ⟨p, e, hd, he, hle⟩
      simp [Frontend.requestInterceptor, Frontend.tokenTruthy,
        Frontend.TokenManager.isTokenValid, hie, hexp]
  · intro t hd
    unfold Frontend.TokenManager.isTokenExpired
    simp [hd]
  · intro t p hd he
    unfold Frontend.TokenManager.isTokenExpired
    simp [hd, he]

theorem requestInterceptor_attaches_iff_witness :
    (Frontend.requestInterceptor (fun _ => some ⟨some 9999⟩) 1 (some "tok")
        ⟨none⟩).authorization ≠ none ∧
    Frontend.TokenManager.isTokenExpired (fun _ => none) 1 "tok" = true :=
  ⟨(requestInterceptor_attaches_iff (fun _ => some ⟨some 9999⟩) 1 (some "tok")
      ⟨none⟩ (by norm_num) rfl).1.mpr
        ⟨"tok", ⟨some 9999⟩, 9999, rfl, by decide, rfl, rfl, by norm_num⟩,
    (requestInterceptor_attaches_iff (fun _ => none) 1 (some "tok")
      ⟨none⟩ (by norm_num) rfl).2.1 "tok" rfl⟩

/-- C9: whenever an API response arrives with HTTP status 401, the
response interceptor removes both the stored token and the stored user
before propagating the error. -/
theorem response401_clears_storage (st : Frontend.TokenManager.Storage)
    (e : Frontend.HttpError) (h : e.status = some 401) :
    (Frontend.responseErrorInterceptor st e).1.token = none ∧
    (Frontend.responseErrorInterceptor st e).1.user = none ∧
    (Frontend.responseErrorInterceptor st e).2 = true := by
  simp [Frontend.responseErrorInterceptor, h, Frontend.TokenManager.clearToken]

theorem response401_clears_storage_witness :
    (Frontend.responseErrorInterceptor ⟨some "tok", some "u"⟩ ⟨some 401⟩).1.token = none ∧
    (Frontend.responseErrorInterceptor ⟨some "tok", some "u"⟩ ⟨some 401⟩).1.user = none ∧
    (Frontend.responseErrorInterceptor ⟨some "tok", some "u"⟩ ⟨some 401⟩).2 = true :=
  response401_clears_storage ⟨some "tok", some "u"⟩ ⟨some 401⟩ rfl

/-- C10: the client `logout` always ends in the unauthenticated state:
whatever the outcome of the `POST /api/auth/logout` request, the stored
token and user are cleared, `user` is reset to null and `isAuthenticated`
to false. -/
theorem logout_always_unauthenticated (s : Frontend.AuthContextState)
    (apiResult : Except Unit Unit) :
    (Frontend.logout s apiResult).isAuthenticated = false ∧
    (Frontend.logout s apiResult).user = none ∧
    (Frontend.logout s apiResult).storage.token = none ∧
    (Frontend.logout s apiResult).storage.user = none := by
  cases apiResult <;>
    simp [Frontend.logout, Frontend.clearAuth, Frontend.TokenManager.clearToken]

/-- C4: `requestPasswordReset` returns byte-identical success-shaped
response bodies for an email that belongs to an existing user and for one
that belongs to no user; the body reveals nothing about account
existence. -/
theorem resetRequest_uniform_response (s : BackendState)
    (e1 e2 tok1 tok2 : String) (now1 now2 : Nat)
    (_hex : (UserDirectory.findByEmail s.dir e1).isSome = true)
    (hab : UserDirectory.findByEmail s.dir e2 = none) :
    (AuthService.requestPasswordReset s e1 tok1 now1).1 =
      (AuthService.requestPasswordReset s e2 tok2 now2).1 := by
  unfold AuthService.requestPasswordReset
  rw [hab]
  cases hf : UserDirectory.findByEmail s.dir e1 <;> simp

theorem resetRequest_uniform_response_witness :
    (AuthService.requestPasswordReset
        ⟨⟨[⟨0, "alice", "alice@x.com", ⟨"secret1"⟩, true, false, none⟩], 1⟩, []⟩
        "alice@x.com" "rt" 0).1 =
      (AuthService.requestPasswordReset
        ⟨⟨[⟨0, "alice", "alice@x.com", ⟨"secret1"⟩, true, false, none⟩], 1⟩, []⟩
        "nonexistent@x.com" "rt2" 7).1 :=
  resetRequest_uniform_response
    ⟨⟨[⟨0, "alice", "alice@x.com", ⟨"secret1"⟩, true, false, none⟩], 1⟩, []⟩
    "alice@x.com" "nonexistent@x.com" "rt" "rt2" 0 7 (by decide) (by decide)

/-- C5: every failing login — user record absent, password hash not
verifying, or account inactive — returns the one generic
`InvalidCredentials` failure, so the three causes are indistinguishable;
moreover `InvalidCredentials` is the only failure `login` ever returns. -/
theorem login_failure_generic (d : Directory) (secret : Nat)
    (email password : String) (now : Nat) :
    (UserDirectory.findByEmail d email = none →
      AuthService.login d secret email password now =
        .error .InvalidCredentials) ∧
    (∀ u, UserDirectory.findByEmail d email = some u →
      CredentialStore.verify password u.password_hash = false →
      AuthService.login d secret email password now =
        .error .InvalidCredentials) ∧
    (∀ u, UserDirectory.findByEmail d email = some u →
      u.is_active = false →
      AuthService.login d secret email password now =
        .error .InvalidCredentials) ∧
    (∀ e, AuthService.login d secret email password now = .error e →
      e = AuthFailure.InvalidCredentials) := by
  refine ⟨?_, ?_, ?_, ?_⟩
  · intro h
    unfold AuthService.login
    rw [h]
  · intro u hu hv
    unfold AuthService.login
    rw [hu]
    simp [hv]
  · intro u hu ha
    unfold AuthService.login
    rw [hu]
    by_cases hv : CredentialStore.verify password u.password_hash = true
    · simp [hv, ha]
    · simp [hv]
  · intro e he
    unfold AuthService.login at he
    cases hf : UserDirectory.findByEmail d email with
    | none =>
      rw [hf] at he
      cases he
      rfl
    | some u =>
      rw [hf] at he
      by_cases hv : CredentialStore.verify password u.password_hash = true
      · by_cases ha : u.is_active = true
        · simp [hv, ha] at he
        · simp only [hv, ha, not_true, not_false_iff, if_true, if_false,
            Bool.false_eq_true, Except.error.injEq] at he
          exact he.symm
      · simp only [hv, not_false_iff, if_true, Bool.false_eq_true,
          Except.error.injEq] at he
        exact he.symm

theorem login_failure_generic_witness :
    AuthService.login ⟨[], 0⟩ 0 "a@x.com" "pw" 0 =
      .error AuthFailure.InvalidCredentials :=
  (login_failure_generic ⟨[], 0⟩ 0 "a@x.com" "pw" 0).1 rfl

/-- C3 counterexample: the claim quantifies over every ttl, but at
ttl = 0 the issued token carries `exp` = now, and verification requires
`exp` > now, so verifying immediately after issuance fails with
`Expired` instead of succeeding. -/
theorem tokenCodec_ttl_zero_counterexample :
    TokenCodec.verify 1 (TokenCodec.issue 1 7 0 100) 100 =
      .error VerifyFailure.Expired := rfl

/-- C3 (amended to ttl ≥ 1): verifying right after issuance succeeds and
returns the embedded claims; at any instant after the embedded `exp` has
passed verification fails with `Expired`; and verification yields claims
only when `exp` > now and `nbf` ≤ now. -/
theorem tokenCodec_issue_verify (secret subject ttl now : Nat)
    (httl : 1 ≤ ttl) :
    (TokenCodec.verify secret (TokenCodec.issue secret subject ttl now) now =
      .ok ⟨subject, now, now, now + ttl * 60⟩) ∧
    (∀ t2, (TokenCodec.issue secret subject ttl now).claims.exp < t2 →
      TokenCodec.verify secret (TokenCodec.issue secret subject ttl now) t2 =
        .error .Expired) ∧
    (∀ (tk : SignedToken) (t2 : Nat) (c : Claims),
      TokenCodec.verify secret tk t2 = .ok c →
      t2 < tk.claims.exp ∧ tk.claims.nbf ≤ t2) := by
  refine ⟨?_, ?_, ?_⟩
  · have hexp : now < now + ttl * 60 := by
      have : 0 < ttl * 60 := Nat.mul_pos httl (by norm_num)
      omega
    simp [TokenCodec.verify, TokenCodec.issue, hexp]
  · intro t2 ht
    simp only [TokenCodec.issue] at ht ⊢
    simp only [TokenCodec.verify]
    simp [Nat.not_lt.mpr (Nat.le_of_lt ht), Nat.lt_asymm ht]
  · intro tk t2 c h
    unfold TokenCodec.verify at h
    split at h
    · cases h
    · split at h
      · cases h
      · split at h
        · cases h
        · rename_i h1 h2 h3
          exact ⟨not_not.mp h2, not_not.mp h3⟩

theorem tokenCodec_issue_verify_witness :
    TokenCodec.verify 0 (TokenCodec.issue 0 1 15 0) 0 =
      .ok ⟨1, 0, 0, 900⟩ :=
  (tokenCodec_issue_verify 0 1 15 0 (by decide)).1

theorem updateFirst_find?_same {α : Type} (p : α → Bool) (f : α → α)
    (hpf : ∀ a, p (f a) = p a) :
    ∀ l : List α, (updateFirst p f l).find? p = (l.find? p).map f := by
  intro l
  induction l with
  | nil => rfl
  | cons a l ih =>
    by_cases hp : p a = true
    · simp [updateFirst, hp, List.find?_cons, hpf a]
    · have hp2 : p a = false := by
        revert hp
        cases p a <;> simp
      simp [updateFirst, hp2, List.find?_cons, ih]

theorem updateFirst_find?_none {α : Type} (p : α → Bool) (f : α → α)
    (hpf : ∀ a, p (f a) = false) :
    ∀ l : List α, l.countP p ≤ 1 →
      (updateFirst p f l).find? p = none := by
  intro l
  induction l with
  | nil => intro _; rfl
  | cons a l ih =>
    intro hcnt
    by_cases hp : p a = true
    · rw [List.countP_cons_of_pos p l hp] at hcnt
      have hzero : l.countP p = 0 := by omega
      have hnone : l.find? p = none :=
        List.find?_eq_none.mpr (List.countP_eq_zero.mp hzero)
      simp [updateFirst, hp, List.find?_cons, hpf a, hnone]
    · rw [List.countP_cons_of_neg p l hp] at hcnt
      have hp2 : p a = false := by
        revert hp
        cases p a <;> simp
      simp [updateFirst, hp2, List.find?_cons, ih hcnt]

theorem mem_updateFirst {α : Type} (p : α → Bool) (f : α → α)
    {b : α} : ∀ {l : List α}, b ∈ updateFirst p f l →
      b ∈ l ∨ ∃ x, x ∈ l ∧ b = f x := by
  intro l
  induction l with
  | nil => intro h; cases h
  | cons a l ih =>
    intro hmem
    by_cases hp : p a = true
    · simp only [updateFirst, if_pos hp] at hmem
      rcases List.mem_cons.mp hmem with h | h
      · exact Or.inr ⟨a, List.mem_cons_self a l, h⟩
      · exact Or.inl (List.mem_cons_of_mem a h)
    · have hp2 : p a = false := by
        revert hp
        cases p a <;> simp
      simp only [updateFirst, hp2, Bool.false_eq_true, if_false] at hmem
      rcases List.mem_cons.mp hmem with h | h
      · exact Or.inl (h ▸ List.mem_cons_self a l)
      · rcases ih h with h2 | ⟨x, hx, hbx⟩
        · exact Or.inl (List.mem_cons_of_mem a h2)
        · exact Or.inr ⟨x, List.mem_cons_of_mem a hx, hbx⟩

theorem setPasswordHash_hash_of_id (d : Directory) (uid : Nat) (h : PwHash) :
    ∀ u ∈ (UserDirectory.setPasswordHash d uid h).users,
      u.id = uid → u.password_hash = h := by
  intro u hu hid
  unfold UserDirectory.setPasswordHash at hu
  simp only [List.mem_map] at hu
  obtain ⟨x, _, hx⟩ := hu
  by_cases hxid : x.id = uid
  · rw [← hx]
    simp [hxid]
  · exfalso
    apply hxid
    rw [← hx] at hid
    simp [show (x.id == uid) = false from beq_eq_false_iff_ne.mpr hxid] at hid
    exact hid

/-- C1: consuming the same valid reset token twice cannot succeed twice:
with the atomic `consume` transaction the spec mandates (§5), whichever
of the two concurrent calls commits first succeeds and the serialized
second call fails with `AlreadyUsed`; the owner's password carries the
first call's hash and is not overwritten by the second. -/
theorem consume_exactly_once (s : BackendState) (tok pw1 pw2 : String)
    (now uid : Nat)
    (hval : ResetTokenLedger.validate s.ledger tok now = .ok uid) :
    (ResetTokenLedger.consume s tok pw1 now).isOk = true ∧
    ∀ s1, ResetTokenLedger.consume s tok pw1 now = .ok s1 →
      ResetTokenLedger.consume s1 tok pw2 now = .error .AlreadyUsed ∧
      ∀ u ∈ s1.dir.users, u.id = uid →
        u.password_hash = CredentialStore.hash pw1 := by
  have hone : ResetTokenLedger.consume s tok pw1 now =
      .ok ⟨UserDirectory.setPasswordHash s.dir uid (CredentialStore.hash pw1),
        updateFirst (fun r => r.token == tok)
          (fun r => {r with used := true}) s.ledger⟩ := by
    unfold ResetTokenLedger.consume
    rw [hval]
  -- facts about the record found by the first validate
  obtain ⟨r, hfind, hnexp, hnused, huid⟩ :
      ∃ r, s.ledger.find? (fun x => x.token == tok) = some r ∧
        ¬ r.expires_at < now ∧ r.used = false ∧ r.user_id = uid := by
    unfold ResetTokenLedger.validate at hval
    cases hf : s.ledger.find? (fun x => x.token == tok) with
    | none => rw [hf] at hval; cases hval
    | some r =>
      simp only [hf] at hval
      by_cases hexp : r.expires_at < now
      · rw [if_pos hexp] at hval; cases hval
      · rw [if_neg hexp] at hval
        by_cases hu : r.used = true
        · rw [if_pos hu] at hval; cases hval
        · rw [if_neg hu] at hval
          cases hval
          exact ⟨r, rfl, hexp, Bool.eq_false_iff.mpr hu, rfl⟩
  refine ⟨by rw [hone]; rfl, ?_⟩
  intro s1 hs1
  rw [hone] at hs1
  cases hs1
  constructor
  · have hfind2 : (updateFirst (fun r => r.token == tok)
        (fun r => {r with used := true}) s.ledger).find?
          (fun r => r.token == tok) = some {r with used := true} := by
      rw [updateFirst_find?_same (fun r => r.token == tok)
        (fun r => {r with used := true}) (fun a => rfl) s.ledger, hfind]
      rfl
    unfold ResetTokenLedger.consume ResetTokenLedger.validate
    rw [hfind2]
    simp [hnexp]
  · exact setPasswordHash_hash_of_id s.dir uid (CredentialStore.hash pw1)

theorem consume_exactly_once_witness :
    (ResetTokenLedger.consume
      ⟨⟨[⟨0, "alice", "alice@x.com", ⟨"secret1"⟩, true, false, none⟩], 1⟩,
        [⟨0, "rt", 0, 600, false⟩]⟩ "rt" "newpass1" 5).isOk = true ∧
    ResetTokenLedger.consume
      ⟨⟨[⟨0, "alice", "alice@x.com", ⟨"newpass1"⟩, true, false, none⟩], 1⟩,
        [⟨0, "rt", 0, 600, true⟩]⟩ "rt" "newpass2" 5 =
      .error AuthFailure.AlreadyUsed :=
  ⟨(consume_exactly_once
      ⟨⟨[⟨0, "alice", "alice@x.com", ⟨"secret1"⟩, true, false, none⟩], 1⟩,
        [⟨0, "rt", 0, 600, false⟩]⟩ "rt" "newpass1" "newpass2" 5 0 rfl).1,
    ((consume_exactly_once
      ⟨⟨[⟨0, "alice", "alice@x.com", ⟨"secret1"⟩, true, false, none⟩], 1⟩,
        [⟨0, "rt", 0, 600, false⟩]⟩ "rt" "newpass1" "newpass2" 5 0 rfl).2
      ⟨⟨[⟨0, "alice", "alice@x.com", ⟨"newpass1"⟩, true, false, none⟩], 1⟩,
        [⟨0, "rt", 0, 600, true⟩]⟩ rfl).1⟩

/-- C6: email-verification tokens are single-use: a successful
`verifyEmail` returns the user with `is_verified` = true and the token
field cleared, and a second `verifyEmail` with the same token fails with
`InvalidToken`.  The uniqueness hypothesis says the opaque random token is
held by at most one user, as its generation guarantees. -/
theorem verifyEmail_single_use (d : Directory) (tok : String) (u : User)
    (d2 : Directory)
    (huniq : d.users.countP (UserDirectory.holdsVerifTok tok) ≤ 1)
    (h : AuthService.verifyEmail d tok = .ok (u, d2)) :
    u.is_verified = true ∧ u.email_verification_token = none ∧
    AuthService.verifyEmail d2 tok = .error .InvalidToken := by
  unfold AuthService.verifyEmail UserDirectory.markVerified at h
  cases hf : d.users.find? (UserDirectory.holdsVerifTok tok) with
  | none => rw [hf] at h; cases h
  | some u0 =>
    simp only [hf] at h
    cases h
    refine ⟨rfl, rfl, ?_⟩
    unfold AuthService.verifyEmail UserDirectory.markVerified
    have hnone : (updateFirst (UserDirectory.holdsVerifTok tok)
        (fun x => {x with is_verified := true, email_verification_token := none})
        d.users).find? (UserDirectory.holdsVerifTok tok) = none :=
      updateFirst_find?_none _ _ (fun a => rfl) d.users huniq
    simp only [hnone]

theorem verifyEmail_single_use_witness :
    AuthService.verifyEmail
      ⟨[⟨0, "alice", "alice@x.com", ⟨"secret1"⟩, true, true, none⟩], 1⟩ "vt" =
      .error AuthFailure.InvalidToken :=
  (verifyEmail_single_use
    ⟨[⟨0, "alice", "alice@x.com", ⟨"secret1"⟩, true, false, some "vt"⟩], 1⟩ "vt"
    ⟨0, "alice", "alice@x.com", ⟨"secret1"⟩, true, true, none⟩
    ⟨[⟨0, "alice", "alice@x.com", ⟨"secret1"⟩, true, true, none⟩], 1⟩
    (by decide) rfl).2.2

/-- C7: for every valid (username, email, password) triple that is not
yet taken, `register` succeeds, a `login` with the same email and
password on the resulting state succeeds, and the session token's claims
carry that user's id as subject — for the registration token and for the
login token alike. -/
theorem register_then_login (d : Directory) (secret : Nat)
    (username email password verifTok : String) (now now2 : Nat)
    (hu : validUsername username = true) (he : validEmail email = true)
    (hp : validPassword password = true)
    (hnu : UserDirectory.usernameTaken d username = false)
    (hne : UserDirectory.emailTaken d email = false) :
    (AuthService.register d secret username email password verifTok now).isOk
        = true ∧
    ∀ u tk d2,
      AuthService.register d secret username email password verifTok now =
        .ok (u, tk, d2) →
      tk.claims.sub = u.id ∧
      AuthService.login d2 secret email password now2 =
        .ok (TokenCodec.issue secret u.id 15 now2) ∧
      (TokenCodec.issue secret u.id 15 now2).claims.sub = u.id := by
  have hcreate : UserDirectory.create d username email password verifTok =
      .ok (⟨d.nextId, username, email, CredentialStore.hash password,
            true, false, some verifTok⟩,
        ⟨d.users ++ [⟨d.nextId, username, email, CredentialStore.hash password,
            true, false, some verifTok⟩], d.nextId + 1⟩) := by
    unfold UserDirectory.create
    simp [hu, he, hp, hnu, hne]
  have hreg : AuthService.register d secret username email password verifTok
      now = .ok (⟨d.nextId, username, email, CredentialStore.hash password,
            true, false, some verifTok⟩,
        TokenCodec.issue secret d.nextId 15 now,
        ⟨d.users ++ [⟨d.nextId, username, email, CredentialStore.hash password,
            true, false, some verifTok⟩], d.nextId + 1⟩) := by
    unfold AuthService.register
    rw [hcreate]
  refine ⟨by rw [hreg]; rfl, ?_⟩
  intro u tk d2 h
  rw [hreg] at h
  cases h
  refine ⟨rfl, ?_, rfl⟩
  have hfind : UserDirectory.findByEmail
      ⟨d.users ++ [⟨d.nextId, username, email, CredentialStore.hash password,
        true, false, some verifTok⟩], d.nextId + 1⟩ email =
      some ⟨d.nextId, username, email, CredentialStore.hash password,
        true, false, some verifTok⟩ := by
    unfold UserDirectory.findByEmail
    rw [List.find?_append]
    have h1 : d.users.find? (fun x => x.email == email) = none := by
      apply List.find?_eq_none.mpr
      intro x hx
      exact List.any_eq_false.mp hne x hx
    rw [h1]
    simp [List.find?_cons]
  unfold AuthService.login
  rw [hfind]
  simp [CredentialStore.verify, CredentialStore.hash]

theorem register_then_login_witness :
    (AuthService.register ⟨[], 0⟩ 0 "alice" "alice@x.com" "secret1" "vt"
        0).isOk = true ∧
    AuthService.login
      ⟨[⟨0, "alice", "alice@x.com", ⟨"secret1"⟩, true, false, some "vt"⟩], 1⟩
      0 "alice@x.com" "secret1" 5 = .ok (TokenCodec.issue 0 0 15 5) ∧
    (TokenCodec.issue 0 0 15 5).claims.sub = 0 :=
  ⟨(register_then_login ⟨[], 0⟩ 0 "alice" "alice@x.com" "secret1" "vt" 0 5
      (by decide) (by decide) (by decide) rfl rfl).1,
    ((register_then_login ⟨[], 0⟩ 0 "alice" "alice@x.com" "secret1" "vt" 0 5
      (by decide) (by decide) (by decide) rfl rfl).2
      ⟨0, "alice", "alice@x.com", ⟨"secret1"⟩, true, false, some "vt"⟩
      (TokenCodec.issue 0 0 15 0)
      ⟨[⟨0, "alice", "alice@x.com", ⟨"secret1"⟩, true, false, some "vt"⟩], 1⟩
      rfl).2.1,
    ((register_then_login ⟨[], 0⟩ 0 "alice" "alice@x.com" "secret1" "vt" 0 5
      (by decide) (by decide) (by decide) rfl rfl).2
      ⟨0, "alice", "alice@x.com", ⟨"secret1"⟩, true, false, some "vt"⟩
      (TokenCodec.issue 0 0 15 0)
      ⟨[⟨0, "alice", "alice@x.com", ⟨"secret1"⟩, true, false, some "vt"⟩], 1⟩
      rfl).2.2⟩

theorem activeAt_antitone {t t2 : Nat} (r : ResetToken) (hle : t ≤ t2)
    (ha : activeAt t2 r = true) : activeAt t r = true := by
  unfold activeAt at ha ⊢
  simp only [Bool.and_eq_true, Bool.not_eq_true', decide_eq_true_eq] at ha ⊢
  exact ⟨ha.1, le_trans hle ha.2⟩

theorem conflictAt_mono {t t2 : Nat} {a b : ResetToken} (hle : t ≤ t2)
    (h : ConflictAt t2 a b) : ConflictAt t a b :=
  ⟨h.1, activeAt_antitone a hle h.2.1, activeAt_antitone b hle h.2.2⟩

theorem atMostOneActive_mono {l : Ledger} {t t2 : Nat} (hle : t ≤ t2)
    (h : AtMostOneActive l t) : AtMostOneActive l t2 :=
  h.imp (fun hnc hc => hnc (conflictAt_mono hle hc))

theorem activeAt_markUsed (t : Nat) (r : ResetToken) :
    activeAt t {r with used := true} = false := by
  unfold activeAt
  simp

theorem atMostOneActive_updateFirst (p : ResetToken → Bool) (t : Nat) :
    ∀ l : Ledger, AtMostOneActive l t →
      AtMostOneActive (updateFirst p (fun r => {r with used := true}) l) t := by
  intro l
  induction l with
  | nil => intro h; exact h
  | cons a l ih =>
    intro h
    rcases List.pairwise_cons.mp h with ⟨hrel, hpw⟩
    by_cases hp : p a = true
    · simp only [updateFirst, if_pos hp]
      apply List.pairwise_cons.mpr
      refine ⟨?_, hpw⟩
      intro b _ hc
      have hfalse := hc.2.1
      rw [activeAt_markUsed] at hfalse
      cases hfalse
    · have hp2 : p a = false := Bool.eq_false_iff.mpr hp
      simp only [updateFirst, hp2, Bool.false_eq_true, if_false]
      apply List.pairwise_cons.mpr
      refine ⟨?_, ih hpw⟩
      intro b hb hc
      rcases mem_updateFirst p _ hb with hbl | ⟨x, _, hbx⟩
      · exact hrel b hbl hc
      · have hfalse := hc.2.2
        rw [hbx, activeAt_markUsed] at hfalse
        cases hfalse

theorem issue_map_preserve {uid now : Nat} (r : ResetToken)
    (h : activeAt now (if r.user_id == uid && activeAt now r
        then {r with used := true} else r) = true) :
    (if r.user_id == uid && activeAt now r
      then {r with used := true} else r) = r ∧
    (r.user_id == uid && activeAt now r) = false := by
  by_cases hc : (r.user_id == uid && activeAt now r) = true
  · rw [if_pos hc, activeAt_markUsed] at h
    cases h
  · exact ⟨if_neg hc, Bool.eq_false_iff.mpr hc⟩

theorem atMostOneActive_issue {l : Ledger} {uid : Nat} {tok : String}
    {now : Nat} (h : AtMostOneActive l now) :
    AtMostOneActive (ResetTokenLedger.issue l uid tok now) now := by
  unfold ResetTokenLedger.issue AtMostOneActive
  apply List.pairwise_append.mpr
  refine ⟨?_, List.pairwise_singleton _ _, ?_⟩
  · apply List.pairwise_map.mpr
    apply h.imp
    intro a b hnab hcab
    apply hnab
    obtain ⟨hae, -⟩ := issue_map_preserve a hcab.2.1
    obtain ⟨hbe, -⟩ := issue_map_preserve b hcab.2.2
    rw [hae, hbe] at hcab
    exact hcab
  · intro a ha b hb hc
    rcases List.mem_map.mp ha with ⟨x, -, hxa⟩
    rcases List.mem_singleton.mp hb with rfl
    obtain ⟨hxe, hcond⟩ := issue_map_preserve x (hxa ▸ hc.2.1)
    rw [← hxa, hxe] at hc
    have huidx : x.user_id = uid := hc.1
    have : (x.user_id == uid && activeAt now x) = true := by
      rw [huidx]
      simp [hc.2.1]
    rw [this] at hcond
    cases hcond

theorem atMostOneActive_cleanup {l : Ledger} {t now : Nat}
    (h : AtMostOneActive l t) :
    AtMostOneActive (ResetTokenLedger.cleanupExpired l now) t :=
  List.Pairwise.sublist (List.filter_sublist l) h

theorem atMostOneActive_consume {s : BackendState} {tok pw : String}
    {now : Nat} (h : AtMostOneActive s.ledger now) :
    ∀ s2, ResetTokenLedger.consume s tok pw now = .ok s2 →
      AtMostOneActive s2.ledger now := by
  intro s2 hc
  unfold ResetTokenLedger.consume at hc
  cases hv : ResetTokenLedger.validate s.ledger tok now with
  | error e => rw [hv] at hc; cases hc
  | ok uid =>
    simp only [hv] at hc
    cases hc
    exact atMostOneActive_updateFirst _ now s.ledger h

theorem reachable_atMostOneActive {s : BackendState} {t : Nat}
    (h : Reachable s t) : AtMostOneActive s.ledger t := by
  induction h with
  | init d => exact List.Pairwise.nil
  | tick t2 hr hle ih => exact atMostOneActive_mono hle ih
  | @step s1 t1 e hr ih =>
    cases e with
    | issueReset uid tok => exact atMostOneActive_issue ih
    | consumeReset tok pw =>
      cases hc : ResetTokenLedger.consume s1 tok pw t1 with
      | ok s2 =>
        have happ : applyEvent s1 (.consumeReset tok pw) t1 = s2 := by
          simp only [applyEvent, hc]
        rw [happ]
        exact atMostOneActive_consume ih s2 hc
      | error e2 =>
        have happ : applyEvent s1 (.consumeReset tok pw) t1 = s1 := by
          simp only [applyEvent, hc]
        rw [happ]
        exact ih
    | cleanup => exact atMostOneActive_cleanup ih

theorem atMostOneActive_filter_len {l : Ledger} {t : Nat}
    (h : AtMostOneActive l t) (uid : Nat) :
    (l.filter (fun r => r.user_id == uid && activeAt t r)).length ≤ 1 := by
  have hpw : (l.filter (fun r => r.user_id == uid && activeAt t r)).Pairwise
      (fun a b => ¬ ConflictAt t a b) :=
    List.Pairwise.sublist (List.filter_sublist l) h
  cases hlf : l.filter (fun r => r.user_id == uid && activeAt t r) with
  | nil => simp
  | cons a tl =>
    cases tl with
    | nil => simp
    | cons b tl2 =>
      exfalso
      rw [hlf] at hpw
      rcases List.pairwise_cons.mp hpw with ⟨hrel, -⟩
      have hab : ¬ ConflictAt t a b := hrel b (List.mem_cons_self b tl2)
      have hamem : a ∈ l.filter (fun r => r.user_id == uid && activeAt t r) := by
        rw [hlf]
        exact List.mem_cons_self a (b :: tl2)
      have hbmem : b ∈ l.filter (fun r => r.user_id == uid && activeAt t r) := by
        rw [hlf]
        exact List.mem_cons_of_mem a (List.mem_cons_self b tl2)
      have ha := List.of_mem_filter hamem
      have hb := List.of_mem_filter hbmem
      simp only [Bool.and_eq_true, beq_iff_eq] at ha hb
      exact hab ⟨ha.1.trans hb.1.symm, ha.2, hb.2⟩

theorem find?_of_unique {α : Type} (q : α → Bool) :
    ∀ (l : List α) (r : α), l.countP q ≤ 1 → r ∈ l → q r = true →
      l.find? q = some r := by
  intro l
  induction l with
  | nil => intro r _ hr _; cases hr
  | cons a l ih =>
    intro r hcnt hr hq
    by_cases ha : q a = true
    · rw [List.find?_cons_of_pos _ ha]
      rcases List.mem_cons.mp hr with h | h
      · rw [h]
      · exfalso
        rw [List.countP_cons_of_pos q l ha] at hcnt
        have : 0 < l.countP q := List.countP_pos_iff.mpr ⟨r, h, hq⟩
        omega
    · rw [List.find?_cons_of_neg _ ha]
      rcases List.mem_cons.mp hr with h | h
      · exact absurd (h ▸ hq) ha
      · rw [List.countP_cons_of_neg q l ha] at hcnt
        exact ih r hcnt h hq

theorem validate_old_after_issue (l : Ledger) (uid : Nat)
    (tokNew : String) (r : ResetToken) (now : Nat)
    (hmem : r ∈ l) (hact : activeAt now r = true) (huid : r.user_id = uid)
    (huniq : l.countP (fun x => x.token == r.token) ≤ 1) :
    (∀ t2 v, ResetTokenLedger.validate
      (ResetTokenLedger.issue l uid tokNew now) r.token t2 ≠ .ok v) ∧
    (∀ t2, t2 ≤ r.expires_at →
      ResetTokenLedger.validate
        (ResetTokenLedger.issue l uid tokNew now) r.token t2 =
          .error .AlreadyUsed) := by
  have hfind : (ResetTokenLedger.issue l uid tokNew now).find?
      (fun x => x.token == r.token) = some {r with used := true} := by
    unfold ResetTokenLedger.issue
    rw [List.find?_append]
    have hcomp : ((fun x : ResetToken => x.token == r.token) ∘
        (fun x => if x.user_id == uid && activeAt now x
          then {x with used := true} else x)) =
        (fun x : ResetToken => x.token == r.token) := by
      funext x
      by_cases hc : (x.user_id == uid && activeAt now x) = true
      · simp [Function.comp, hc]
      · simp [Function.comp, hc]
    have hcond : (r.user_id == uid && activeAt now r) = true := by
      rw [huid]
      simp [hact]
    have hmap : (l.map (fun x => if x.user_id == uid && activeAt now x
        then {x with used := true} else x)).find?
          (fun x => x.token == r.token) = some {r with used := true} := by
      rw [List.find?_map, hcomp,
        find?_of_unique (fun x => x.token == r.token) l r huniq hmem
          (by simp)]
      simp only [Option.map_some']
      rw [if_pos hcond]
    rw [hmap]
    rfl
  constructor
  · intro t2 v hv
    unfold ResetTokenLedger.validate at hv
    simp only [hfind] at hv
    by_cases hexp : r.expires_at < t2
    · rw [if_pos hexp] at hv
      cases hv
    · simp [hexp] at hv
  · intro t2 hle
    have hexp : ¬ r.expires_at < t2 := not_lt.mpr hle
    unfold ResetTokenLedger.validate
    simp only [hfind]
    simp [hexp]

/-- C2: in every reachable state, each user has at most one active
(unused, unexpired) reset token; and after `ResetTokenLedger.issue`
supersedes a user's active token, validating that earlier token can
never succeed — while the earlier token is within its original expiry
window the failure is `AlreadyUsed`.  The hypotheses say the old token is
the active row being superseded and that its random string occurs in the
table once. -/
theorem single_active_reset_token :
    (∀ (s : BackendState) (t : Nat), Reachable s t → ∀ uid,
      (s.ledger.filter (fun r => r.user_id == uid && activeAt t r)).length
        ≤ 1) ∧
    (∀ (l : Ledger) (uid : Nat) (tokNew : String) (r : ResetToken)
        (now : Nat),
      r ∈ l → activeAt now r = true → r.user_id = uid →
      l.countP (fun x => x.token == r.token) ≤ 1 →
      (∀ t2 v, ResetTokenLedger.validate
        (ResetTokenLedger.issue l uid tokNew now) r.token t2 ≠ .ok v) ∧
      (∀ t2, t2 ≤ r.expires_at →
        ResetTokenLedger.validate
          (ResetTokenLedger.issue l uid tokNew now) r.token t2 =
            .error .AlreadyUsed)) :=
  ⟨fun _ _ h uid => atMostOneActive_filter_len (reachable_atMostOneActive h) uid,
   validate_old_after_issue⟩

theorem single_active_reset_token_witness :
    (([] : Ledger).filter (fun r => r.user_id == 0 && activeAt 0 r)).length
      ≤ 1 ∧
    ResetTokenLedger.validate
      (ResetTokenLedger.issue [⟨1, "old", 0, 600, false⟩] 1 "new" 10)
      "old" 10 = .error AuthFailure.AlreadyUsed :=
  ⟨single_active_reset_token.1 ⟨⟨[], 0⟩, []⟩ 0 (Reachable.init ⟨[], 0⟩) 0,
   (single_active_reset_token.2 [⟨1, "old", 0, 600, false⟩] 1 "new"
      ⟨1, "old", 0, 600, false⟩ 10 (List.mem_singleton.mpr rfl) rfl rfl
      (by decide)).2 10 (by decide)⟩

end ProjectHuman
